import Mathlib

/-!
Verification of the provider-record normalization and enrichment pipeline of
the `civicdatadog/website` repository (files `python-scripts/mn_ccap_scraper.py`
and `python-scripts/enrich_providers.py`), as a shallow embedding in Lean 4.

Rows and records are modelled as association lists with Python-`dict`
semantics (unique keys maintained by `dictSet`: replace in place, else
append).  Python string operations (`str.strip`, `str.lower`, `str.split`,
character classes) are modelled for the ASCII range, which is what all
claims and concrete inputs exercise.  The two remote HTTP calls of the
enrichment client are modelled by an explicit `Oracle` of responses, so the
client and the batch loop are pure functions of the oracle.
-/

/-- Python `str.strip()` (ASCII whitespace range). -/
def pyStrip (s : String) : String :=
  String.mk (((s.toList.dropWhile Char.isWhitespace).reverse.dropWhile Char.isWhitespace).reverse)

/-- Python `str.lower()` (ASCII range). -/
def pyLower (s : String) : String :=
  String.mk (s.toList.map Char.toLower)

/-- Keep only characters `ch` with `ch.isalnum() or ch.isspace()`
(ASCII range), as in `normalize_address_key`. -/
def pyFilterAlnumSpace (s : String) : String :=
  String.mk (s.toList.filter (fun c => c.isAlphanum || c.isWhitespace))

/-- Helper for `pySplit`: accumulates the current word (reversed). -/
def pySplitAux : List Char → List Char → List String
  | [], acc => if acc.isEmpty then [] else [String.mk acc.reverse]
  | c :: cs, acc =>
    if c.isWhitespace then
      if acc.isEmpty then pySplitAux cs [] else String.mk acc.reverse :: pySplitAux cs []
    else pySplitAux cs (c :: acc)

/-- Python `str.split()` with no arguments: split on whitespace runs,
discarding empty pieces. -/
def pySplit (s : String) : List String :=
  pySplitAux s.toList []

/-- Code-point comparison of char lists, the order Python `sorted` uses on
strings. -/
def charListLe : List Char → List Char → Bool
  | [], _ => true
  | _ :: _, [] => false
  | a :: as, b :: bs =>
    if a < b then true
    else if b < a then false
    else charListLe as bs

/-- Python string `<=` (lexicographic by code point). -/
def strLe (a b : String) : Bool :=
  charListLe a.toList b.toList

theorem charListLe_total : ∀ l1 l2 : List Char, charListLe l1 l2 = true ∨ charListLe l2 l1 = true := by
  intro l1
  induction l1 with
  | nil => intro l2; left; rfl
  | cons a as ih =>
    intro l2
    cases l2 with
    | nil => right; rfl
    | cons b bs =>
      by_cases hab : a < b
      · left; simp [charListLe, hab]
      · by_cases hba : b < a
        · right; simp [charListLe, hba]
        · rcases ih bs with h | h
          · left; simp [charListLe, hab, hba, h]
          · right; simp [charListLe, hab, hba, h]

theorem charListLe_trans : ∀ l1 l2 l3 : List Char,
    charListLe l1 l2 = true → charListLe l2 l3 = true → charListLe l1 l3 = true := by
  intro l1
  induction l1 with
  | nil => intro l2 l3 _ _; rfl
  | cons a as ih =>
    intro l2 l3 h12 h23
    cases l2 with
    | nil => simp [charListLe] at h12
    | cons b bs =>
      cases l3 with
      | nil => simp [charListLe] at h23
      | cons c cs =>
        simp only [charListLe] at h12 h23 ⊢
        by_cases hab : a < b
        · by_cases hbc : b < c
          · have hac : a < c := lt_trans hab hbc
            simp [hac]
          · by_cases hcb : c < b
            · simp [hbc, hcb] at h23
            · have hbc' : b = c := le_antisymm (not_lt.mp hcb) (not_lt.mp hbc)
              subst hbc'
              simp [hab]
        · by_cases hba : b < a
          · simp [hab, hba] at h12
          · have hab' : a = b := le_antisymm (not_lt.mp hba) (not_lt.mp hab)
            subst hab'
            by_cases hbc : a < c
            · simp [hbc]
            · by_cases hcb : c < a
              · simp [hbc, hcb] at h23
              · simp only [hab, hba, if_neg, ite_false] at h12
                simp [hbc, hcb] at h23 ⊢
                exact ih bs cs (by simpa [hab, hba] using h12) h23

instance : IsTotal String (fun a b => strLe a b = true) :=
  ⟨fun a b => charListLe_total a.toList b.toList⟩

instance : IsTrans String (fun a b => strLe a b = true) :=
  ⟨fun a b c => charListLe_trans a.toList b.toList c.toList⟩

/-- A Python `dict` with `String` keys, modelled as an association list with
unique keys (uniqueness is maintained by `dictSet`). -/
abbrev DictV (α : Type) : Type := List (String × α)

/-- Rows of string-valued fields (CSV rows, canonical records). -/
abbrev Dict : Type := DictV String

/-- `d[k]` lookup: first binding of `k`. -/
def dictGet {α : Type} : DictV α → String → Option α
  | [], _ => none
  | (k', v) :: rest, k => if k' = k then some v else dictGet rest k

/-- Python `d.get(k, dflt)`. -/
def dictGetD (d : Dict) (k dflt : String) : String :=
  (dictGet d k).getD dflt

/-- Python `d[k] = v`: replace the binding in place, else append. -/
def dictSet {α : Type} : DictV α → String → α → DictV α
  | [], k, v => [(k, v)]
  | (k', v') :: rest, k, v =>
    if k' = k then (k, v) :: rest else (k', v') :: dictSet rest k v

/-- Python `d.update(other)`: assign each binding of `other` in order. -/
def dictUpdate {α : Type} (d other : DictV α) : DictV α :=
  other.foldl (fun acc kv => dictSet acc kv.1 kv.2) d

/-- Python `d.setdefault(k, v)`: set `k` only when absent. -/
def dictSetdefault {α : Type} (d : DictV α) (k : String) (v : α) : DictV α :=
  if (dictGet d k).isSome then d else dictSet d k v

/-- The keys of a dict, in order. -/
def dictKeys {α : Type} (d : DictV α) : List String :=
  d.map Prod.fst

/-- Number of bindings of a dict carrying key `k`. -/
def countKey {α : Type} (d : DictV α) (k : String) : Nat :=
  (d.filter (fun kv => kv.1 == k)).length

theorem dictGet_set {α : Type} (d : DictV α) (k v k') :
    dictGet (dictSet d k v) k' = if k = k' then some v else dictGet d k' := by
  induction d with
  | nil => by_cases h : k = k' <;> simp [dictSet, dictGet, h]
  | cons kv rest ih =>
    obtain ⟨k0, v0⟩ := kv
    by_cases h0 : k0 = k
    · subst h0
      by_cases h : k0 = k' <;> simp [dictSet, dictGet, h, ih]
    · by_cases h : k0 = k'
      · subst h
        have : ¬ k = k0 := fun hh => h0 hh.symm
        simp [dictSet, dictGet, h0, this]
      · simp [dictSet, dictGet, h0, h, ih]

theorem dictGet_mem {α : Type} (d : DictV α) (k : String) (v : α)
    (h : dictGet d k = some v) : (k, v) ∈ d := by
  induction d with
  | nil => simp [dictGet] at h
  | cons kv rest ih =>
    obtain ⟨k0, v0⟩ := kv
    by_cases h0 : k0 = k
    · subst h0
      simp [dictGet] at h
      subst h
      exact List.mem_cons_self _ _
    · simp [dictGet, h0] at h
      exact List.mem_cons_of_mem _ (ih h)

theorem dictKeys_cons {α : Type} (k0 : String) (v0 : α) (rest : DictV α) :
    dictKeys ((k0, v0) :: rest) = k0 :: dictKeys rest := rfl

theorem dictGet_isSome_iff_mem_keys {α : Type} (d : DictV α) (k : String) :
    (dictGet d k).isSome = true ↔ k ∈ dictKeys d := by
  induction d with
  | nil => simp [dictGet, dictKeys]
  | cons kv rest ih =>
    obtain ⟨k0, v0⟩ := kv
    rw [dictKeys_cons, List.mem_cons]
    by_cases h0 : k0 = k
    · subst h0; simp [dictGet]
    · have hd : dictGet ((k0, v0) :: rest) k = dictGet rest k := by simp [dictGet, h0]
      rw [hd, ih]
      constructor
      · exact fun h => Or.inr h
      · rintro (h | h)
        · exact absurd h.symm h0
        · exact h

theorem dictGet_eq_none_of_no_key {α : Type} (d : DictV α) (k : String)
    (h : k ∉ dictKeys d) : dictGet d k = none := by
  cases hv : dictGet d k with
  | none => rfl
  | some v =>
    exact absurd ((dictGet_isSome_iff_mem_keys d k).mp (by simp [hv])) h

theorem dictGet_update_not_mem {α : Type} (d other : DictV α) (k : String)
    (h : k ∉ dictKeys other) : dictGet (dictUpdate d other) k = dictGet d k := by
  induction other generalizing d with
  | nil => rfl
  | cons kv rest ih =>
    obtain ⟨k0, v0⟩ := kv
    rw [dictKeys_cons] at h
    have h1 : k ≠ k0 := fun he => h (he ▸ List.mem_cons_self _ _)
    have h2 : k ∉ dictKeys rest := fun hm => h (List.mem_cons_of_mem _ hm)
    show dictGet (dictUpdate (dictSet d k0 v0) rest) k = dictGet d k
    rw [ih _ h2, dictGet_set]
    simp [Ne.symm h1]

theorem dictGet_update_nodup {α : Type} (d other : DictV α) (k : String)
    (hnd : (dictKeys other).Nodup) :
    dictGet (dictUpdate d other) k =
      match dictGet other k with
      | some v => some v
      | none => dictGet d k := by
  induction other generalizing d with
  | nil => simp [dictUpdate, dictGet]
  | cons kv rest ih =>
    obtain ⟨k0, v0⟩ := kv
    rw [dictKeys_cons, List.nodup_cons] at hnd
    show dictGet (dictUpdate (dictSet d k0 v0) rest) k = _
    by_cases h0 : k0 = k
    · subst h0
      have hstep : dictGet (dictUpdate (dictSet d k0 v0) rest) k0
          = dictGet (dictSet d k0 v0) k0 :=
        dictGet_update_not_mem _ _ _ hnd.1
      rw [hstep, dictGet_set]
      simp [dictGet]
    · rw [ih (dictSet d k0 v0) hnd.2, dictGet_set]
      cases hr : dictGet rest k <;> simp [dictGet, h0, hr]

/-! ### `enrich_providers.py`: source definitions -/

/-- `build_query` (enrich_providers.py:52-60): join the non-empty values of
provider_name, address, city, state, zip with ", ". -/
def build_query (row : Dict) : String :=
  let parts := [dictGetD row "provider_name" "", dictGetD row "address" "",
                dictGetD row "city" "", dictGetD row "state" "", dictGetD row "zip" ""]
  String.intercalate ", " (parts.filter (fun p => p ≠ ""))

/-- `normalize_address_key` (enrich_providers.py:63-77): space-join the four
address components, lower-case, keep alphanumerics and whitespace, collapse
whitespace runs; fall back to the provider name normalized the same way when
the composite is empty. -/
def normalize_address_key (row : Dict) : String :=
  let parts := [dictGetD row "address" "", dictGetD row "city" "",
                dictGetD row "state" "", dictGetD row "zip" ""]
  let key := pyLower (String.intercalate " " parts)
  let key := pyFilterAlnumSpace key
  let key := String.intercalate " " (pySplit key)
  if key = "" then
    let name := pyLower (dictGetD row "provider_name" "")
    let name := pyFilterAlnumSpace name
    String.intercalate " " (pySplit name)
  else key

/-- Python `str.startswith`, on the character lists (kernel-reducible). -/
def strStartsWith (s pre : String) : Bool :=
  List.isPrefixOf pre.toList s.toList

/-- Python `str.endswith`, on the character lists (kernel-reducible). -/
def strEndsWith (s suf : String) : Bool :=
  List.isSuffixOf suf.toList s.toList

/-- Helper for `pyReplace`: replace each non-overlapping occurrence of `pat`
(non-empty) by `rep`, left to right, with fuel bounding the scan. -/
def replaceChars (pat rep : List Char) : Nat → List Char → List Char
  | 0, l => l
  | _ + 1, [] => []
  | fuel + 1, c :: rest =>
    if List.isPrefixOf pat (c :: rest) then rep ++ replaceChars pat rep fuel ((c :: rest).drop pat.length)
    else c :: replaceChars pat rep fuel rest

/-- Python `s.replace(pat, rep)` for a non-empty pattern. -/
def pyReplace (s pat rep : String) : String :=
  String.mk (replaceChars pat.toList rep.toList s.toList.length s.toList)

/-- `extract_places_fields` (enrich_providers.py:80-81): the sub-dict of
bindings whose key starts with `places_`. -/
def extract_places_fields (row : Dict) : Dict :=
  row.filter (fun kv => strStartsWith kv.1 "places_")

/-- The `result` object of the details response (enrich_providers.py:94-121).
Numeric members are carried as their `str(...)` rendering and
`geometry/location` is flattened to `lat`/`lng`; `types` is the raw list. -/
structure DetailsResult where
  lat : String
  lng : String
  website : String
  phone : String
  intl_phone : String
  typesList : List String
  placeUrl : String
  name : String
  formatted_address : String
  business_status : String
  rating : String
  user_ratings_total : String

/-- Responses of the two remote endpoints, indexed by query string and by
place id.  `search q = none` models `places_text_search` returning `None`
(non-`OK` status or empty result list); `details p = none` models
`places_details` returning `None`. -/
structure Oracle where
  search : String → Option Dict
  details : String → Option DetailsResult

/-- `enrich_row` (enrich_providers.py:124-167) as a pure function of the
oracle.  `if not result` is modelled by `none` together with the empty-dict
result; values read from the search result mirror `result.get(k, "")`. -/
def enrich_row (o : Oracle) (row : Dict) : Dict :=
  let query := build_query row
  match o.search query with
  | none => dictSet (dictSet row "places_query" query) "places_status" "NO_MATCH"
  | some result =>
    if result.isEmpty then
      dictSet (dictSet row "places_query" query) "places_status" "NO_MATCH"
    else
      let place_id := dictGetD result "place_id" ""
      let details := if place_id ≠ "" then o.details place_id else none
      let row := dictSet row "places_query" query
      let row := dictSet row "places_place_id" place_id
      let row := dictSet row "places_name" (dictGetD result "name" "")
      let row := dictSet row "places_formatted_address" (dictGetD result "formatted_address" "")
      let row := dictSet row "places_business_status" (dictGetD result "business_status" "")
      let row := dictSet row "places_rating" (dictGetD result "rating" "")
      let row := dictSet row "places_user_ratings_total" (dictGetD result "user_ratings_total" "")
      match details with
      | some d =>
        let row := dictSet row "places_lat" d.lat
        let row := dictSet row "places_lng" d.lng
        let row := dictSet row "places_website" d.website
        let row := dictSet row "places_phone" d.phone
        let row := dictSet row "places_intl_phone" d.intl_phone
        let row := dictSet row "places_types" (String.intercalate "," d.typesList)
        let row := dictSet row "places_url" d.placeUrl
        let row := dictSet row "places_details_name" d.name
        let row := dictSet row "places_details_address" d.formatted_address
        let row := dictSet row "places_details_status" d.business_status
        let row := dictSet row "places_details_rating" d.rating
        let row := dictSet row "places_details_user_ratings_total" d.user_ratings_total
        dictSet row "places_status" "OK"
      | none => dictSet row "places_status" "NO_DETAILS"

/-- Whether `enrich_row` reaches the details phase: a result was found and
its `place_id` is non-empty (enrich_providers.py:138-139). -/
def enrich_row_details_attempted (o : Oracle) (row : Dict) : Bool :=
  match o.search (build_query row) with
  | none => false
  | some result =>
    if result.isEmpty then false
    else dictGetD result "place_id" "" ≠ ""

/-- Number of remote HTTP requests `enrich_row` issues: one search request,
plus one details request when the details phase is attempted. -/
def enrich_row_calls (o : Oracle) (row : Dict) : Nat :=
  if enrich_row_details_attempted o row then 2 else 1

/-- The sequence of `row[k] = v` assignments `enrich_row` performs, in
source order. -/
def enrich_row_writes (o : Oracle) (row : Dict) : List (String × String) :=
  let query := build_query row
  match o.search query with
  | none => [("places_query", query), ("places_status", "NO_MATCH")]
  | some result =>
    if result.isEmpty then [("places_query", query), ("places_status", "NO_MATCH")]
    else
      let place_id := dictGetD result "place_id" ""
      let details := if place_id ≠ "" then o.details place_id else none
      let searchWrites :=
        [("places_query", query), ("places_place_id", place_id),
         ("places_name", dictGetD result "name" ""),
         ("places_formatted_address", dictGetD result "formatted_address" ""),
         ("places_business_status", dictGetD result "business_status" ""),
         ("places_rating", dictGetD result "rating" ""),
         ("places_user_ratings_total", dictGetD result "user_ratings_total" "")]
      match details with
      | some d =>
        searchWrites ++
          [("places_lat", d.lat), ("places_lng", d.lng), ("places_website", d.website),
           ("places_phone", d.phone), ("places_intl_phone", d.intl_phone),
           ("places_types", String.intercalate "," d.typesList),
           ("places_url", d.placeUrl), ("places_details_name", d.name),
           ("places_details_address", d.formatted_address),
           ("places_details_status", d.business_status),
           ("places_details_rating", d.rating),
           ("places_details_user_ratings_total", d.user_ratings_total),
           ("places_status", "OK")]
      | none => searchWrites ++ [("places_status", "NO_DETAILS")]

/-- State of the batch loop in `main` (enrich_providers.py:215-230): the
address-key cache, the accumulated output rows, and the number of remote
requests issued so far. -/
structure LoopState where
  cache : DictV Dict
  enriched_rows : List Dict
  api_calls : Nat
deriving DecidableEq, Repr

/-- One iteration of the loop in `main` (enrich_providers.py:217-230):
cache hit (non-empty key present in cache) copies the cached fields, sets
`places_status = "CACHED"` and appends, with no remote call; otherwise
`enrich_row` runs and, when the key is non-empty, its `places_` fields are
cached. -/
def process_row (o : Oracle) (st : LoopState) (row : Dict) : LoopState :=
  let cache_key := normalize_address_key row
  match (if cache_key = "" then none else dictGet st.cache cache_key) with
  | some cached_fields =>
    { st with enriched_rows :=
        st.enriched_rows ++ [dictSet (dictUpdate row cached_fields) "places_status" "CACHED"] }
  | none =>
    let enriched := enrich_row o row
    { cache := if cache_key = "" then st.cache
               else dictSet st.cache cache_key (extract_places_fields enriched),
      enriched_rows := st.enriched_rows ++ [enriched],
      api_calls := st.api_calls + enrich_row_calls o row }

/-- The assignments to the current row performed by one loop iteration: on a
cache hit, `row.update(cached_fields)` assigns each cached binding in order
and then `places_status` is assigned `"CACHED"`; otherwise the writes of
`enrich_row`. -/
def process_row_writes (o : Oracle) (st : LoopState) (row : Dict) : List (String × String) :=
  let cache_key := normalize_address_key row
  match (if cache_key = "" then none else dictGet st.cache cache_key) with
  | some cached_fields => cached_fields ++ [("places_status", "CACHED")]
  | none => enrich_row_writes o row

/-- The whole batch loop of `main`, from an empty cache. -/
def run_enrichment (o : Oracle) (rows : List Dict) : LoopState :=
  rows.foldl (process_row o) ⟨[], [], 0⟩

/-- Python `sorted`, modelled as insertion sort under the code-point order. -/
def sortStrings (l : List String) : List String :=
  List.insertionSort (fun a b => strLe a b = true) l

/-- `fieldnames = sorted({k for row in enriched_rows for k in row.keys()})`
(enrich_providers.py:232). -/
def compute_fieldnames (rows : List Dict) : List String :=
  sortStrings ((rows.map dictKeys).flatten.dedup)

/-- The projection `write_enriched` applies to each row
(enrich_providers.py:49): `{k: row.get(k, "") for k in fieldnames}`. -/
def write_enriched_row (fieldnames : List String) (row : Dict) : List (String × String) :=
  fieldnames.map (fun k => (k, dictGetD row k ""))

/-! ### `mn_ccap_scraper.py`: column mapper and defaults -/

/-- A value of a normalized record: the mapped fields are strings, while
`raw_row` retains the raw row's dict (mn_ccap_scraper.py:157-158). -/
inductive PyVal where
  | str (v : String)
  | dict (d : Dict)
deriving DecidableEq, Repr

/-- A normalized provider record. -/
abbrev Record : Type := DictV PyVal

/-- The DHS-column → canonical-field table, in source order
(mn_ccap_scraper.py:138-154). -/
def column_map : List (String × String) :=
  [("LicenseNumber", "license_number"),
   ("License #", "license_number"),
   ("License Holder Name", "provider_name"),
   ("Provider Name", "provider_name"),
   ("Doing Business As", "doing_business_as"),
   ("DBA Name", "doing_business_as"),
   ("License Type", "license_type"),
   ("City", "city"),
   ("State", "state"),
   ("Zip", "zip"),
   ("County", "county"),
   ("Status", "status"),
   ("License Status", "status"),
   ("Address", "address"),
   ("Street Address", "address")]

/-- One step of the mapping loop (mn_ccap_scraper.py:161-163): when the
source column is present with a truthy (non-empty) value, assign the
trimmed value to the canonical field. -/
def map_columns_step (row : Dict) (acc : Record) (p : String × String) : Record :=
  match dictGet row p.1 with
  | some v => if v ≠ "" then dictSet acc p.2 (PyVal.str (pyStrip v)) else acc
  | none => acc

/-- The mapping loop over an arbitrary table. -/
def map_columns_on (cm : List (String × String)) (row : Dict) (init : Record) : Record :=
  cm.foldl (map_columns_step row) init

/-- The mapping loop over `column_map`. -/
def map_columns (row : Dict) (init : Record) : Record :=
  map_columns_on column_map row init

/-- The value the mapping loop leaves in canonical field `c`, when any: the
trimmed value of the last `column_map` entry targeting `c` whose source
column is present in the row with a non-empty value. -/
def mapped_value_on (cm : List (String × String)) (row : Dict) (c : String) : Option String :=
  ((cm.filter (fun p => p.2 == c &&
      (match dictGet row p.1 with | some v => v != "" | none => false))).getLast?).map
    (fun p => pyStrip (dictGetD row p.1 ""))

/-- `mapped_value_on` over `column_map`. -/
def mapped_value (row : Dict) (c : String) : Option String :=
  mapped_value_on column_map row c

/-- The `setdefault` calls of `parse_providers`, in source order
(mn_ccap_scraper.py:166-174).  Note the list does not include
`doing_business_as`. -/
def core_defaults : List (String × PyVal) :=
  [("license_number", PyVal.str ""),
   ("provider_name", PyVal.str ""),
   ("license_type", PyVal.str ""),
   ("city", PyVal.str ""),
   ("state", PyVal.str "MN"),
   ("zip", PyVal.str ""),
   ("county", PyVal.str ""),
   ("status", PyVal.str ""),
   ("address", PyVal.str "")]

/-- Normalization of one CSV row by `parse_providers`
(mn_ccap_scraper.py:156-176). -/
def parse_providers_row (row : Dict) : Record :=
  let normalized : Record := [("raw_row", PyVal.dict row)]
  let normalized := map_columns row normalized
  core_defaults.foldl (fun acc p => dictSetdefault acc p.1 p.2) normalized

/-- `parse_providers` over a list of CSV rows (the `csv.DictReader` rows). -/
def parse_providers (rows : List Dict) : List Record :=
  rows.map parse_providers_row

/-- `out_fields` of `write_normalized_csv` (mn_ccap_scraper.py:183-194):
the fixed ten-column schema order. -/
def out_fields : List String :=
  ["license_number", "provider_name", "doing_business_as", "license_type", "status",
   "address", "city", "state", "zip", "county"]

/-- The row projection of `write_normalized_csv` (mn_ccap_scraper.py:201):
`{field: p.get(field, "") for field in out_fields}`, where a non-string
(`raw_row`) value never occurs at the projected fields. -/
def write_normalized_row (p : Record) : List (String × String) :=
  out_fields.map (fun f =>
    (f, match dictGet p f with
        | some (PyVal.str v) => v
        | some (PyVal.dict _) => ""
        | none => ""))

/-! ### `mn_ccap_scraper.py`: HTML record extractor

The regular expressions in the source are written in raw strings containing
doubled backslashes (e.g. `r"^(.*?),\\s*([A-Z]{2})\\s+(\\d{5})"`), so in the
regex engine `\\` is an escaped literal backslash and `s`/`d` are literal
letters.  The matchers below model those patterns exactly as written. -/

/-- Case-insensitive character comparison (for `re.IGNORECASE`). -/
def ciEq (a b : Char) : Bool :=
  a.toLower == b.toLower

/-- Match the tail of the `<br` substitution pattern `<br\\s*/?>` as written:
a literal backslash, a run of `s`/`S`, an optional `/`, then `>`.  Returns
the remainder after the match. -/
def brTail : List Char → Option (List Char)
  | '\\' :: rest =>
    match rest.dropWhile (fun c => c == 's' || c == 'S') with
    | '/' :: '>' :: r => some r
    | '>' :: r => some r
    | _ => none
  | _ => none

/-- Match the full `<br\\s*/?>` pattern at the head of the list. -/
def brAt : List Char → Option (List Char)
  | '<' :: c1 :: c2 :: rest =>
    if ciEq c1 'b' && ciEq c2 'r' then brTail rest else none
  | _ => none

/-- `re.sub(r"<br\\s*/?>", "\n", text, flags=re.IGNORECASE)`
(mn_ccap_scraper.py:205), with fuel bounding the scan. -/
def subBr : Nat → List Char → List Char
  | 0, l => l
  | _ + 1, [] => []
  | fuel + 1, c :: rest =>
    match brAt (c :: rest) with
    | some rem => '\n' :: subBr fuel rem
    | none => c :: subBr fuel rest

/-- Consume up to and including the next `>`; `none` if there is none. -/
def consumeTag : List Char → Option (List Char)
  | [] => none
  | '>' :: r => some r
  | _ :: r => consumeTag r

/-- Match `[^>]+>` at the head of the list (the part of `<[^>]+>` after the
opening `<`): at least one non-`>` character, then `>`. -/
def tagEnd : List Char → Option (List Char)
  | [] => none
  | '>' :: _ => none
  | _ :: rest => consumeTag rest

/-- `re.sub(r"<[^>]+>", "", text)` (mn_ccap_scraper.py:206), with fuel. -/
def stripTags : Nat → List Char → List Char
  | 0, l => l
  | _ + 1, [] => []
  | fuel + 1, c :: rest =>
    if c = '<' then
      match tagEnd rest with
      | some rem => stripTags fuel rem
      | none => c :: stripTags fuel rest
    else c :: stripTags fuel rest

/-- `html.unescape` (mn_ccap_scraper.py:207), modelled for the five
standard entities; further named references do not occur in the inputs the
claims exercise. -/
def unescapeChars : Nat → List Char → List Char
  | 0, l => l
  | _ + 1, [] => []
  | fuel + 1, c :: rest =>
    if List.isPrefixOf "&amp;".toList (c :: rest) then '&' :: unescapeChars fuel ((c :: rest).drop 5)
    else if List.isPrefixOf "&lt;".toList (c :: rest) then '<' :: unescapeChars fuel ((c :: rest).drop 4)
    else if List.isPrefixOf "&gt;".toList (c :: rest) then '>' :: unescapeChars fuel ((c :: rest).drop 4)
    else if List.isPrefixOf "&quot;".toList (c :: rest) then '"' :: unescapeChars fuel ((c :: rest).drop 6)
    else if List.isPrefixOf "&#39;".toList (c :: rest) then '\'' :: unescapeChars fuel ((c :: rest).drop 5)
    else c :: unescapeChars fuel rest

/-- Python `str.splitlines()` over `\n`, `\r` and `\r\n`, without a trailing
empty segment. -/
def splitLinesAux : List Char → List Char → List (List Char)
  | [], acc => if acc.isEmpty then [] else [acc.reverse]
  | '\r' :: '\n' :: rest, acc => acc.reverse :: splitLinesAux rest []
  | '\r' :: rest, acc => acc.reverse :: splitLinesAux rest []
  | '\n' :: rest, acc => acc.reverse :: splitLinesAux rest []
  | c :: rest, acc => splitLinesAux rest (c :: acc)

/-- `_clean_html_block` (mn_ccap_scraper.py:204-209): substitute the (as
written) `<br` pattern, strip `<[^>]+>` tags, decode entities, then return
the stripped non-empty lines. -/
def clean_html_block (s : String) : List String :=
  let t := subBr s.toList.length s.toList
  let t := stripTags t.length t
  let t := unescapeChars t.length t
  ((splitLinesAux t []).map (fun l => pyStrip (String.mk l))).filter (fun l => l ≠ "")

/-- Match, after a comma, the rest of the pattern
`^(.*?),\\s*([A-Z]{2})\\s+(\\d{5})` as written: a literal backslash, a run
of `s`, two capital letters, a literal backslash, at least one `s`, then a
literal backslash followed by five `d`s.  Returns the two captured groups
(`[A-Z]{2}` and `\\d{5}`). -/
def cszTail : List Char → Option (String × String)
  | '\\' :: rest =>
    match rest.dropWhile (fun c => c == 's') with
    | a :: b :: rest2 =>
      if a.isUpper && b.isUpper then
        match rest2 with
        | '\\' :: rest3 =>
          let srun := rest3.takeWhile (fun c => c == 's')
          if srun.isEmpty then none
          else
            match rest3.dropWhile (fun c => c == 's') with
            | '\\' :: 'd' :: 'd' :: 'd' :: 'd' :: 'd' :: _ =>
              some (String.mk [a, b], String.mk ['\\', 'd', 'd', 'd', 'd', 'd'])
            | _ => none
        | _ => none
      else none
    | _ => none
  | _ => none

/-- `re.match(r"^(.*?),\\s*([A-Z]{2})\\s+(\\d{5})", s)`
(mn_ccap_scraper.py:240): scan for the leftmost comma whose tail matches
(the lazy `(.*?)` cannot cross a newline); return the three groups. -/
def cszScan : List Char → List Char → Option (String × String × String)
  | _, [] => none
  | acc, c :: rest =>
    if c = ',' then
      match cszTail rest with
      | some (st, zp) => some (String.mk acc.reverse, st, zp)
      | none => cszScan (c :: acc) rest
    else if c = '\n' then none
    else cszScan (c :: acc) rest

/-- The city/state/zip matcher of `parse_providers_html`, for the regex as
written in the source. -/
def match_city_state_zip (s : String) : Option (String × String × String) :=
  cszScan [] s.toList

/-- The county loop of `parse_providers_html` (mn_ccap_scraper.py:243-245):
the last line ending in `"County"` contributes
`line.replace("County", "").strip()`. -/
def county_of_lines (lines : List String) : String :=
  lines.foldl (fun acc line =>
    if strEndsWith line "County" then pyStrip (pyReplace line "County" "") else acc) ""

/-- The address/city/state/zip/county extraction of `parse_providers_html`
for one listing's left block (mn_ccap_scraper.py:232-245 and the
`state or "MN"` default of line 267).  Returns
`(address, city, state, zip, county)`. -/
def parse_left_block (left_block : String) : String × String × String × String × String :=
  let left_lines := clean_html_block left_block
  let address := match left_lines with | [] => "" | l :: _ => l
  let csz :=
    match left_lines with
    | _ :: second :: _ => match_city_state_zip second
    | _ => none
  let city := match csz with | some (c, _, _) => pyStrip c | none => ""
  let state := match csz with | some (_, st, _) => st | none => ""
  let zipCode := match csz with | some (_, _, z) => z | none => ""
  let county := county_of_lines (left_lines.drop 2)
  (address, city, (if state = "" then "MN" else state), zipCode, county)

/-! ### Supporting lemmas -/

/-- The filter predicate of `mapped_value_on`: the entry targets `c` and its
source column is present in `row` with a non-empty value. -/
def entry_active (row : Dict) (c : String) (p : String × String) : Bool :=
  p.2 == c && (match dictGet row p.1 with | some v => v != "" | none => false)

theorem mapped_value_on_eq (cm : List (String × String)) (row : Dict) (c : String) :
    mapped_value_on cm row c =
      ((cm.filter (entry_active row c)).getLast?).map
        (fun p => pyStrip (dictGetD row p.1 "")) := rfl

/-- The mapping loop computes, at each canonical field, the trimmed value of
the last present-and-non-empty source column targeting it (last-wins). -/
theorem map_columns_on_get (cm : List (String × String)) (row : Dict) (init : Record)
    (c : String) :
    dictGet (map_columns_on cm row init) c =
      match mapped_value_on cm row c with
      | some v => some (PyVal.str v)
      | none => dictGet init c := by
  induction cm using List.reverseRecOn with
  | nil => simp [map_columns_on, mapped_value_on]
  | append_singleton cm p ih =>
    rw [map_columns_on, List.foldl_append, List.foldl_cons, List.foldl_nil]
    rw [show List.foldl (map_columns_step row) init cm = map_columns_on cm row init from rfl]
    rw [mapped_value_on_eq, List.filter_append]
    by_cases hp : entry_active row c p = true
    · have hfil : List.filter (entry_active row c) [p] = [p] := by
        simp [List.filter_cons, hp]
      rw [hfil, List.getLast?_concat]
      have hc : p.2 = c := by
        have := (Bool.and_eq_true _ _).mp hp
        exact eq_of_beq this.1
      obtain ⟨v, hv, hvne⟩ : ∃ v, dictGet row p.1 = some v ∧ v ≠ "" := by
        have hact := ((Bool.and_eq_true _ _).mp hp).2
        cases hg : dictGet row p.1 with
        | none => rw [hg] at hact; simp at hact
        | some v =>
          rw [hg] at hact
          exact ⟨v, rfl, by simpa using hact⟩
      rw [map_columns_step, hv]
      show dictGet (if v ≠ "" then dictSet (map_columns_on cm row init) p.2 (PyVal.str (pyStrip v))
          else map_columns_on cm row init) c = some (PyVal.str (pyStrip (dictGetD row p.1 "")))
      rw [if_pos hvne, hc, dictGet_set, if_pos rfl]
      simp [dictGetD, hv]
    · have hfil : List.filter (entry_active row c) [p] = [] := by
        simp only [List.filter_cons, List.filter_nil]
        rw [if_neg hp]
      rw [hfil, List.append_nil, ← mapped_value_on_eq]
      have hstep : dictGet (map_columns_step row (map_columns_on cm row init) p) c =
          dictGet (map_columns_on cm row init) c := by
        rw [map_columns_step]
        cases hg : dictGet row p.1 with
        | none => rfl
        | some v =>
          by_cases hv : v = ""
          · simp [hv]
          · have hpc : p.2 ≠ c := by
              intro he
              apply hp
              rw [entry_active, hg]
              simp [he, hv]
            show dictGet (if v ≠ "" then dictSet (map_columns_on cm row init) p.2
                (PyVal.str (pyStrip v)) else map_columns_on cm row init) c = _
            rw [if_pos hv, dictGet_set, if_neg hpc]
      rw [hstep]
      exact ih

/-- The `setdefault` sequence fills exactly the fields the mapping left
unset, with the default table's values. -/
theorem defaults_foldl_get (ds : List (String × PyVal)) (r : Record) (k : String) :
    dictGet (ds.foldl (fun acc p => dictSetdefault acc p.1 p.2) r) k =
      match dictGet r k with
      | some v => some v
      | none => dictGet ds k := by
  induction ds generalizing r with
  | nil => cases hg : dictGet r k <;> simp [dictGet, hg]
  | cons p ds ih =>
    obtain ⟨k0, v0⟩ := p
    rw [List.foldl_cons, ih]
    by_cases h0 : k0 = k
    · subst h0
      cases hg : dictGet r k0 with
      | some v => simp [dictSetdefault, hg]
      | none =>
        have hset : dictGet (dictSetdefault r k0 v0) k0 = some v0 := by
          rw [dictSetdefault, hg]
          show dictGet (if (none : Option PyVal).isSome = true then r else dictSet r k0 v0) k0 = _
        
          rw [if_neg (by simp), dictGet_set, if_pos rfl]
        rw [hset]
        simp [dictGet, hg]
    · have hkeep : dictGet (dictSetdefault r k0 v0) k = dictGet r k := by
        rw [dictSetdefault]
        by_cases hs : (dictGet r k0).isSome = true
        · rw [if_pos hs]
        · rw [if_neg hs, dictGet_set, if_neg h0]
      rw [hkeep]
      cases hg : dictGet r k <;> simp [dictGet, hg, h0]

theorem countKey_nil {α : Type} (k : String) : countKey ([] : DictV α) k = 0 := rfl

theorem countKey_cons {α : Type} (k0 : String) (v0 : α) (rest : DictV α) (k : String) :
    countKey ((k0, v0) :: rest) k = (if k0 = k then 1 else 0) + countKey rest k := by
  by_cases h : k0 = k
  · simp [countKey, List.filter_cons, h, Nat.add_comm]
  · simp [countKey, List.filter_cons, h]

theorem countKey_set_ne {α : Type} (d : DictV α) (k' k : String) (v : α) (h : k' ≠ k) :
    countKey (dictSet d k' v) k = countKey d k := by
  induction d with
  | nil => simp [countKey, dictSet, List.filter_cons, h]
  | cons kv rest ih =>
    obtain ⟨k0, v0⟩ := kv
    by_cases h0 : k0 = k'
    · subst h0
      rw [show dictSet ((k0, v0) :: rest) k0 v = (k0, v) :: rest by simp [dictSet]]
      rw [countKey_cons, countKey_cons]
    · rw [show dictSet ((k0, v0) :: rest) k' v = (k0, v0) :: dictSet rest k' v by
        simp [dictSet, h0]]
      rw [countKey_cons, countKey_cons, ih]

theorem countKey_set_self {α : Type} (d : DictV α) (k : String) (v : α)
    (h : countKey d k = 0) : countKey (dictSet d k v) k = 1 := by
  induction d with
  | nil =>
    show countKey [(k, v)] k = 1
    rw [countKey_cons, countKey_nil, if_pos rfl]
  | cons kv rest ih =>
    obtain ⟨k0, v0⟩ := kv
    rw [countKey_cons] at h
    by_cases h0 : k0 = k
    · rw [if_pos h0] at h
      omega
    · rw [if_neg h0] at h
      simp only [Nat.zero_add] at h
      rw [show dictSet ((k0, v0) :: rest) k v = (k0, v0) :: dictSet rest k v by
        simp [dictSet, fun hh : k0 = k => h0 hh]]
      rw [countKey_cons, if_neg h0, ih h]

/-- A places-free dict binds no `places_`-prefixed key. -/
theorem dictGet_none_of_places_free (row : Dict)
    (hrow : ∀ kv ∈ row, strStartsWith kv.1 "places_" = false) (k : String)
    (hk : strStartsWith k "places_" = true) : dictGet row k = none := by
  apply dictGet_eq_none_of_no_key
  intro hmem
  obtain ⟨kv, hkv, he⟩ := List.mem_map.mp hmem
  have hfalse := hrow kv hkv
  rw [he] at hfalse
  rw [hfalse] at hk
  exact Bool.false_ne_true hk

/-- Every key of `extract_places_fields row` starts with `places_`. -/
theorem extract_places_fields_keys (row : Dict) :
    ∀ kv ∈ extract_places_fields row, strStartsWith kv.1 "places_" = true :=
  fun kv h => (List.mem_filter.mp h).2

theorem extract_places_fields_cons (k0 : String) (v0 : String) (rest : Dict) :
    extract_places_fields ((k0, v0) :: rest) =
      if strStartsWith k0 "places_" then (k0, v0) :: extract_places_fields rest
      else extract_places_fields rest := by
  rw [extract_places_fields, extract_places_fields, List.filter_cons]

/-- `extract_places_fields` keeps every `places_`-prefixed binding. -/
theorem dictGet_extract_places_fields (row : Dict) (k : String) :
    dictGet (extract_places_fields row) k =
      if strStartsWith k "places_" then dictGet row k else none := by
  induction row with
  | nil =>
    rw [show extract_places_fields [] = [] from rfl]
    by_cases hkp : strStartsWith k "places_" <;> simp [dictGet, hkp]
  | cons kv rest ih =>
    obtain ⟨k0, v0⟩ := kv
    rw [extract_places_fields_cons]
    by_cases hp : strStartsWith k0 "places_"
    · rw [if_pos hp]
      by_cases h0 : k0 = k
      · subst h0
        rw [show dictGet ((k0, v0) :: extract_places_fields rest) k0 = some v0 by
            simp [dictGet]]
        rw [if_pos hp]
        simp [dictGet]
      · rw [show dictGet ((k0, v0) :: extract_places_fields rest) k
            = dictGet (extract_places_fields rest) k by simp [dictGet, h0]]
        rw [ih]
        by_cases hkp : strStartsWith k "places_" <;> simp [hkp, dictGet, h0]
    · rw [if_neg hp, ih]
      by_cases h0 : k0 = k
      · subst h0
        by_cases hkp : strStartsWith k0 "places_"
        · exact absurd hkp hp
        · simp [hkp, dictGet, hp]
      · by_cases hkp : strStartsWith k "places_" <;> simp [hkp, dictGet, h0]

theorem dictUpdate_concat {α : Type} (d ws : DictV α) (k : String) (v : α) :
    dictUpdate d (ws ++ [(k, v)]) = dictSet (dictUpdate d ws) k v := by
  rw [dictUpdate, dictUpdate, List.foldl_append, List.foldl_cons, List.foldl_nil]

theorem dictGet_update_concat_self {α : Type} (d ws : DictV α) (k : String) (v : α) :
    dictGet (dictUpdate d (ws ++ [(k, v)])) k = some v := by
  rw [dictUpdate_concat, dictGet_set, if_pos rfl]

theorem countKey_update_ne {α : Type} (d ws : DictV α) (k : String)
    (h : ∀ w ∈ ws, w.1 ≠ k) : countKey (dictUpdate d ws) k = countKey d k := by
  induction ws generalizing d with
  | nil => rfl
  | cons w ws ih =>
    show countKey (dictUpdate (dictSet d w.1 w.2) ws) k = countKey d k
    rw [ih _ (fun w2 hw2 => h w2 (List.mem_cons_of_mem _ hw2))]
    exact countKey_set_ne _ _ _ _ (h w (List.mem_cons_self _ _))

/-- `enrich_row` is the sequential application of its write log. -/
theorem enrich_row_eq_update_writes (o : Oracle) (row : Dict) :
    enrich_row o row = dictUpdate row (enrich_row_writes o row) := by
  rw [enrich_row, enrich_row_writes]
  cases hs : o.search (build_query row) with
  | none => rfl
  | some result =>
    dsimp only
    by_cases he : result.isEmpty = true
    · simp only [if_pos he]
      rfl
    · simp only [if_neg he]
      cases hd : (if dictGetD result "place_id" "" ≠ ""
          then o.details (dictGetD result "place_id" "") else none) with
      | none => simp only [dictUpdate, List.foldl_append, List.foldl_cons, List.foldl_nil]
      | some d => simp only [dictUpdate, List.foldl_append, List.foldl_cons, List.foldl_nil]

/-- The write log of `enrich_row` is a status-free prefix followed by a
single `places_status` assignment, whose value is one of the three
non-cached statuses. -/
theorem enrich_row_writes_shape (o : Oracle) (row : Dict) :
    ∃ ws0 s, enrich_row_writes o row = ws0 ++ [("places_status", s)]
      ∧ (∀ w ∈ ws0, w.1 ≠ "places_status")
      ∧ (s = "NO_MATCH" ∨ s = "OK" ∨ s = "NO_DETAILS") := by
  rw [enrich_row_writes]
  cases hs : o.search (build_query row) with
  | none =>
    refine ⟨[("places_query", build_query row)], "NO_MATCH", rfl, ?_, Or.inl rfl⟩
    intro w hw
    simp at hw
    subst hw
    simp
  | some result =>
    dsimp only
    by_cases he : result.isEmpty = true
    · simp only [if_pos he]
      refine ⟨[("places_query", build_query row)], "NO_MATCH", rfl, ?_, Or.inl rfl⟩
      intro w hw
      simp at hw
      subst hw
      simp
    · simp only [if_neg he]
      cases hd : (if dictGetD result "place_id" "" ≠ ""
          then o.details (dictGetD result "place_id" "") else none) with
      | none =>
        refine ⟨[("places_query", build_query row),
          ("places_place_id", dictGetD result "place_id" ""),
          ("places_name", dictGetD result "name" ""),
          ("places_formatted_address", dictGetD result "formatted_address" ""),
          ("places_business_status", dictGetD result "business_status" ""),
          ("places_rating", dictGetD result "rating" ""),
          ("places_user_ratings_total", dictGetD result "user_ratings_total" "")],
          "NO_DETAILS", rfl, ?_, Or.inr (Or.inr rfl)⟩
        intro w hw
        simp only [List.mem_cons, List.not_mem_nil, or_false] at hw
        rcases hw with rfl | rfl | rfl | rfl | rfl | rfl | rfl <;> simp
      | some d =>
        refine ⟨[("places_query", build_query row),
          ("places_place_id", dictGetD result "place_id" ""),
          ("places_name", dictGetD result "name" ""),
          ("places_formatted_address", dictGetD result "formatted_address" ""),
          ("places_business_status", dictGetD result "business_status" ""),
          ("places_rating", dictGetD result "rating" ""),
          ("places_user_ratings_total", dictGetD result "user_ratings_total" ""),
          ("places_lat", d.lat), ("places_lng", d.lng), ("places_website", d.website),
          ("places_phone", d.phone), ("places_intl_phone", d.intl_phone),
          ("places_types", String.intercalate "," d.typesList),
          ("places_url", d.placeUrl), ("places_details_name", d.name),
          ("places_details_address", d.formatted_address),
          ("places_details_status", d.business_status),
          ("places_details_rating", d.rating),
          ("places_details_user_ratings_total", d.user_ratings_total)],
          "OK", rfl, ?_, Or.inr (Or.inl rfl)⟩
        intro w hw
        simp only [List.mem_cons, List.not_mem_nil, or_false] at hw
        rcases hw with rfl | rfl | rfl | rfl | rfl | rfl | rfl | rfl | rfl | rfl | rfl | rfl
          | rfl | rfl | rfl | rfl | rfl | rfl | rfl <;> simp

/-- Every write log of `enrich_row` assigns `places_status` exactly once. -/
theorem enrich_row_writes_status_once (o : Oracle) (row : Dict) :
    ((enrich_row_writes o row).filter (fun w => w.1 == "places_status")).length = 1 := by
  obtain ⟨ws0, s, heq, hne, _⟩ := enrich_row_writes_shape o row
  rw [heq, List.filter_append]
  have h0 : ws0.filter (fun w => w.1 == "places_status") = [] :=
    List.filter_eq_nil_iff.mpr (fun w hw => by simp [hne w hw])
  rw [h0]
  simp

/-- The final `places_status` of `enrich_row` is one of the three
non-cached statuses. -/
theorem enrich_row_status_cases (o : Oracle) (row : Dict) :
    dictGet (enrich_row o row) "places_status" = some "NO_MATCH"
    ∨ dictGet (enrich_row o row) "places_status" = some "OK"
    ∨ dictGet (enrich_row o row) "places_status" = some "NO_DETAILS" := by
  obtain ⟨ws0, s, heq, _, hsv⟩ := enrich_row_writes_shape o row
  rw [enrich_row_eq_update_writes, heq, dictGet_update_concat_self]
  rcases hsv with rfl | rfl | rfl
  · exact Or.inl rfl
  · exact Or.inr (Or.inl rfl)
  · exact Or.inr (Or.inr rfl)

/-- A status-free row enriched by `enrich_row` carries exactly one
`places_status` binding. -/
theorem countKey_status_enrich (o : Oracle) (row : Dict)
    (h : countKey row "places_status" = 0) :
    countKey (enrich_row o row) "places_status" = 1 := by
  obtain ⟨ws0, s, heq, hne, _⟩ := enrich_row_writes_shape o row
  rw [enrich_row_eq_update_writes, heq, dictUpdate_concat]
  exact countKey_set_self _ _ _ (by rw [countKey_update_ne _ _ _ hne]; exact h)

/-- `extract_places_fields` preserves the `places_status` binding count. -/
theorem countKey_status_extract (d : Dict) :
    countKey (extract_places_fields d) "places_status" = countKey d "places_status" := by
  induction d with
  | nil => rfl
  | cons kv rest ih =>
    obtain ⟨k0, v0⟩ := kv
    rw [extract_places_fields_cons]
    by_cases hp : strStartsWith k0 "places_"
    · rw [if_pos hp, countKey_cons, countKey_cons, ih]
    · have h0 : k0 ≠ "places_status" := by
        intro he
        subst he
        exact hp (by decide)
      rw [if_neg hp, countKey_cons, if_neg h0, ih]
      simp

/-- The `NO_MATCH` branch of `enrich_row` (enrich_providers.py:133-136). -/
theorem enrich_row_no_match (o : Oracle) (row : Dict)
    (hs : o.search (build_query row) = none) :
    enrich_row o row =
      dictSet (dictSet row "places_query" (build_query row)) "places_status" "NO_MATCH" := by
  simp only [enrich_row, hs]

/-- The `NO_DETAILS` branch of `enrich_row` (enrich_providers.py:138-148,166). -/
theorem enrich_row_no_details (o : Oracle) (row : Dict) (result : Dict)
    (hs : o.search (build_query row) = some result)
    (hne : result.isEmpty = false)
    (hd : (if dictGetD result "place_id" "" ≠ ""
        then o.details (dictGetD result "place_id" "") else none) = none) :
    enrich_row o row =
      dictSet (dictSet (dictSet (dictSet (dictSet (dictSet (dictSet (dictSet row
        "places_query" (build_query row))
        "places_place_id" (dictGetD result "place_id" ""))
        "places_name" (dictGetD result "name" ""))
        "places_formatted_address" (dictGetD result "formatted_address" ""))
        "places_business_status" (dictGetD result "business_status" ""))
        "places_rating" (dictGetD result "rating" ""))
        "places_user_ratings_total" (dictGetD result "user_ratings_total" ""))
        "places_status" "NO_DETAILS" := by
  simp only [enrich_row, hs, hne, hd, Bool.false_eq_true, if_false]

/-- Keys of enrichment-cache entries produced by a run all carry the
`places_` provenance marker. -/
def cache_places_only (c : DictV Dict) : Prop :=
  ∀ key d, dictGet c key = some d → ∀ kv ∈ d, strStartsWith kv.1 "places_" = true

theorem process_row_cache_places (o : Oracle) (st : LoopState) (row : Dict)
    (h : cache_places_only st.cache) :
    cache_places_only (process_row o st row).cache := by
  rw [process_row]
  cases hh : (if normalize_address_key row = "" then none
      else dictGet st.cache (normalize_address_key row)) with
  | some cached => exact h
  | none =>
    dsimp only
    by_cases hk : normalize_address_key row = ""
    · rw [if_pos hk]
      exact h
    · rw [if_neg hk]
      intro key d hd kv hkv
      rw [dictGet_set] at hd
      by_cases he : normalize_address_key row = key
      · rw [if_pos he] at hd
        cases hd
        exact extract_places_fields_keys _ kv hkv
      · rw [if_neg he] at hd
        exact h key d hd kv hkv

theorem run_cache_places (o : Oracle) (rows : List Dict) :
    cache_places_only (run_enrichment o rows).cache := by
  have gen : ∀ (rs : List Dict) (st : LoopState), cache_places_only st.cache →
      cache_places_only (rs.foldl (process_row o) st).cache := by
    intro rs
    induction rs with
    | nil => exact fun st h => h
    | cons r rs ih => exact fun st h => ih _ (process_row_cache_places o st r h)
  exact gen rows ⟨[], [], 0⟩ (fun key d hd => by simp [dictGet] at hd)

/-! ### Spec-side definitions and concrete fixtures -/

/-- The normalization pipeline the spec describes for one string: lower-case,
keep alphanumerics and whitespace, collapse whitespace runs. -/
def spec_norm (s : String) : String :=
  String.intercalate " " (pySplit (pyFilterAlnumSpace (pyLower s)))

/-- Modelled from the spec (C3's reference definition): space-join the
`address, city, state, zip` values and normalize; when that composite is
empty, the key is the normalized `provider_name`. -/
def spec_address_key (row : Dict) : String :=
  let composite := spec_norm (String.intercalate " "
    [dictGetD row "address" "", dictGetD row "city" "",
     dictGetD row "state" "", dictGetD row "zip" ""])
  if composite = "" then spec_norm (dictGetD row "provider_name" "") else composite

/-- The normalized composite of the four address components alone. -/
def composite_address_key (row : Dict) : String :=
  spec_norm (String.intercalate " "
    [dictGetD row "address" "", dictGetD row "city" "",
     dictGetD row "state" "", dictGetD row "zip" ""])

/-- Modelled from the spec (C4's claimed column order): the ten core
columns first, then the `places_` columns sorted alphabetically, appended. -/
def claimed_fieldnames (rows : List Dict) : List String :=
  out_fields ++
    sortStrings (((rows.map dictKeys).flatten.dedup).filter (fun k => strStartsWith k "places_"))

/-- The `places_` fields written by the search phase of `enrich_row`
(together with `places_query` and `places_status`). -/
def search_phase_keys : List String :=
  ["places_query", "places_place_id", "places_name", "places_formatted_address",
   "places_business_status", "places_rating", "places_user_ratings_total", "places_status"]

/-- An oracle whose search phase finds nothing. -/
def oracle_no_results : Oracle :=
  { search := fun _ => none, details := fun _ => none }

/-- An oracle whose search phase succeeds but whose details phase fails. -/
def oracle_no_details : Oracle :=
  { search := fun _ => some [("place_id", "pid1"), ("name", "Sunny Days")],
    details := fun _ => none }

/-- The concrete record of the spec's concrete scenario (§8). -/
def sunny_row : Dict :=
  [("provider_name", "Sunny Days Daycare"), ("address", ""), ("city", "Duluth"),
   ("state", "MN"), ("zip", "55802")]

/-- The same address data in a different field order, with an extra field. -/
def sunny_row2 : Dict :=
  [("city", "Duluth"), ("state", "MN"), ("zip", "55802"), ("county", "St. Louis"),
   ("provider_name", "Sunny Days Daycare")]

/-- A record with no address components and provider name `Alpha`. -/
def alpha_row : Dict := [("provider_name", "Alpha")]

/-- A record with no address components and provider name `Beta`. -/
def beta_row : Dict := [("provider_name", "Beta")]

/-- A minimal record with a non-empty address key. -/
def main_st_row : Dict := [("address", "1 Main St")]

/-- A full ten-field canonical row, as read back from the scraper's CSV. -/
def core_row : Dict :=
  [("license_number", "123"), ("provider_name", "Sunny"), ("doing_business_as", ""),
   ("license_type", ""), ("status", ""), ("address", "1 Main St"), ("city", "Duluth"),
   ("state", "MN"), ("zip", "55802"), ("county", "St. Louis")]

/-- A CSV row carrying both source columns that map to `license_number`. -/
def dup_row : Dict := [("LicenseNumber", "111"), ("License #", " 222 ")]

/-- Cached enrichment fields for the key of `main_st_row`. -/
def cached_hit : Dict := [("places_x", "7"), ("places_status", "NO_MATCH")]

/-- A loop state whose cache already holds the key of `main_st_row`. -/
def hit_state : LoopState := ⟨[("1 main st", cached_hit)], [], 0⟩

/-- The cache entry a run over `[main_st_row]` stores for `"1 main st"`. -/
def cached_main : Dict := [("places_query", "1 Main St"), ("places_status", "NO_MATCH")]

/-- One-row enriched output, for the field-order counterexample. -/
def enriched_fixture : List Dict :=
  (run_enrichment oracle_no_results [core_row]).enriched_rows

/-! ### Claim theorems -/

/-- C2: on a cache hit (non-empty address key present in the cache) the
orchestrator makes no remote call, copies the cached enrichment fields onto
the record, sets `places_status = "CACHED"` (overriding any cached status),
and appends the record to the output. -/
theorem orchestrator_cache_hit (o : Oracle) (st : LoopState) (row : Dict) (cached : Dict)
    (hkey : normalize_address_key row ≠ "")
    (hc : dictGet st.cache (normalize_address_key row) = some cached)
    (hnd : (dictKeys cached).Nodup) :
    process_row o st row =
      { st with enriched_rows := st.enriched_rows ++
          [dictSet (dictUpdate row cached) "places_status" "CACHED"] }
    ∧ (process_row o st row).api_calls = st.api_calls
    ∧ dictGet (dictSet (dictUpdate row cached) "places_status" "CACHED") "places_status"
        = some "CACHED"
    ∧ ∀ k v, k ≠ "places_status" → dictGet cached k = some v →
        dictGet (dictSet (dictUpdate row cached) "places_status" "CACHED") k = some v := by
  have hpr : process_row o st row =
      { st with enriched_rows := st.enriched_rows ++
          [dictSet (dictUpdate row cached) "places_status" "CACHED"] } := by
    rw [process_row]
    dsimp only
    rw [if_neg hkey, hc]
  refine ⟨hpr, by rw [hpr], ?_, ?_⟩
  · rw [dictGet_set, if_pos rfl]
  · intro k v hk hv
    rw [dictGet_set, if_neg (fun h => hk h.symm)]
    rw [dictGet_update_nodup _ _ _ hnd, hv]

/-- Witness for C2 at a concrete cache-hit state. -/
theorem orchestrator_cache_hit_witness :
    (process_row oracle_no_results hit_state main_st_row).api_calls = hit_state.api_calls
    ∧ dictGet (dictSet (dictUpdate main_st_row cached_hit) "places_status" "CACHED")
        "places_status" = some "CACHED"
    ∧ dictGet (dictSet (dictUpdate main_st_row cached_hit) "places_status" "CACHED")
        "places_x" = some "7" := by
  have h := orchestrator_cache_hit oracle_no_results hit_state main_st_row cached_hit
    (by decide) (by decide) (by decide)
  exact ⟨h.2.1, h.2.2.1, h.2.2.2 "places_x" "7" (by decide) (by decide)⟩

/-- C5: when the search phase yields nothing, `enrich_row` marks the record
`NO_MATCH`, records the query, never reaches the details phase, and adds no
other `places_` field. -/
theorem enrich_no_match_contract (o : Oracle) (row : Dict)
    (hrow : ∀ kv ∈ row, strStartsWith kv.1 "places_" = false)
    (hs : o.search (build_query row) = none) :
    dictGet (enrich_row o row) "places_status" = some "NO_MATCH"
    ∧ dictGet (enrich_row o row) "places_query" = some (build_query row)
    ∧ enrich_row_details_attempted o row = false
    ∧ ∀ k, strStartsWith k "places_" = true → k ≠ "places_query" → k ≠ "places_status" →
        dictGet (enrich_row o row) k = none := by
  rw [enrich_row_no_match o row hs]
  refine ⟨?_, ?_, ?_, ?_⟩
  · rw [dictGet_set, if_pos rfl]
  · rw [dictGet_set, if_neg (by decide), dictGet_set, if_pos rfl]
  · rw [enrich_row_details_attempted, hs]
  · intro k hk hk1 hk2
    rw [dictGet_set, if_neg (fun h => hk2 h.symm), dictGet_set, if_neg (fun h => hk1 h.symm)]
    exact dictGet_none_of_places_free row hrow k hk

/-- Witness for C5 on the concrete ten-field row. -/
theorem enrich_no_match_contract_witness :
    dictGet (enrich_row oracle_no_results core_row) "places_status" = some "NO_MATCH"
    ∧ dictGet (enrich_row oracle_no_results core_row) "places_name" = none := by
  have h := enrich_no_match_contract oracle_no_results core_row (by decide) rfl
  exact ⟨h.1, h.2.2.2 "places_name" (by decide) (by decide) (by decide)⟩

/-- C6: when the search phase succeeds but the details phase yields nothing,
`enrich_row` marks the record `NO_DETAILS`, keeps the search-phase fields
already copied, and adds no details-phase field. -/
theorem enrich_no_details_contract (o : Oracle) (row : Dict) (result : Dict)
    (hrow : ∀ kv ∈ row, strStartsWith kv.1 "places_" = false)
    (hs : o.search (build_query row) = some result)
    (hne : result.isEmpty = false)
    (hd : (if dictGetD result "place_id" "" ≠ ""
        then o.details (dictGetD result "place_id" "") else none) = none) :
    dictGet (enrich_row o row) "places_status" = some "NO_DETAILS"
    ∧ dictGet (enrich_row o row) "places_query" = some (build_query row)
    ∧ dictGet (enrich_row o row) "places_place_id" = some (dictGetD result "place_id" "")
    ∧ dictGet (enrich_row o row) "places_name" = some (dictGetD result "name" "")
    ∧ dictGet (enrich_row o row) "places_formatted_address"
        = some (dictGetD result "formatted_address" "")
    ∧ dictGet (enrich_row o row) "places_business_status"
        = some (dictGetD result "business_status" "")
    ∧ dictGet (enrich_row o row) "places_rating" = some (dictGetD result "rating" "")
    ∧ dictGet (enrich_row o row) "places_user_ratings_total"
        = some (dictGetD result "user_ratings_total" "")
    ∧ ∀ k, strStartsWith k "places_" = true → k ∉ search_phase_keys →
        dictGet (enrich_row o row) k = none := by
  rw [enrich_row_no_details o row result hs hne hd]
  refine ⟨?_, ?_, ?_, ?_, ?_, ?_, ?_, ?_, ?_⟩
  · simp [dictGet_set]
  · simp [dictGet_set]
  · simp [dictGet_set]
  · simp [dictGet_set]
  · simp [dictGet_set]
  · simp [dictGet_set]
  · simp [dictGet_set]
  · simp [dictGet_set]
  · intro k hk hmem
    simp only [search_phase_keys, List.mem_cons, List.not_mem_nil, or_false, not_or] at hmem
    obtain ⟨h1, h2, h3, h4, h5, h6, h7, h8⟩ := hmem
    rw [dictGet_set, if_neg (fun h => h8 h.symm), dictGet_set, if_neg (fun h => h7 h.symm),
        dictGet_set, if_neg (fun h => h6 h.symm), dictGet_set, if_neg (fun h => h5 h.symm),
        dictGet_set, if_neg (fun h => h4 h.symm), dictGet_set, if_neg (fun h => h3 h.symm),
        dictGet_set, if_neg (fun h => h2 h.symm), dictGet_set, if_neg (fun h => h1 h.symm)]
    exact dictGet_none_of_places_free row hrow k hk

/-- Witness for C6 on the concrete ten-field row and a details-less oracle. -/
theorem enrich_no_details_contract_witness :
    dictGet (enrich_row oracle_no_details core_row) "places_status" = some "NO_DETAILS"
    ∧ dictGet (enrich_row oracle_no_details core_row) "places_place_id" = some "pid1"
    ∧ dictGet (enrich_row oracle_no_details core_row) "places_lat" = none := by
  have h := enrich_no_details_contract oracle_no_details core_row
    [("place_id", "pid1"), ("name", "Sunny Days")] (by decide) rfl rfl rfl
  exact ⟨h.1, h.2.2.1, h.2.2.2.2.2.2.2.2 "places_lat" (by decide) (by decide)⟩

/-- C10: on the orchestrator's cache-hit path, only `places_`-prefixed
fields change on the record — the cache built by a run stores only
`places_` fields, so every other field keeps its value — and the record so
built is exactly the one appended. -/
theorem cache_hit_frame (o : Oracle) (rows : List Dict) (row : Dict) (cached : Dict) (k : String)
    (hkey : normalize_address_key row ≠ "")
    (hc : dictGet (run_enrichment o rows).cache (normalize_address_key row) = some cached)
    (hk : strStartsWith k "places_" = false) :
    dictGet (dictSet (dictUpdate row cached) "places_status" "CACHED") k = dictGet row k
    ∧ (process_row o (run_enrichment o rows) row).enriched_rows
        = (run_enrichment o rows).enriched_rows ++
          [dictSet (dictUpdate row cached) "places_status" "CACHED"] := by
  have hplaces : ∀ kv ∈ cached, strStartsWith kv.1 "places_" = true :=
    run_cache_places o rows _ _ hc
  constructor
  · have hnk : k ∉ dictKeys cached := by
      intro hm
      obtain ⟨kv, hkv, he⟩ := List.mem_map.mp hm
      have ht := hplaces kv hkv
      rw [he] at ht
      rw [ht] at hk
      exact absurd hk (by decide)
    have hne : ¬("places_status" = k) := by
      intro h
      rw [← h] at hk
      rw [show strStartsWith "places_status" "places_" = true from by decide] at hk
      exact absurd hk (by decide)
    rw [dictGet_set, if_neg hne]
    exact dictGet_update_not_mem row cached k hnk
  · rw [process_row]
    dsimp only
    rw [if_neg hkey, hc]

/-- Witness for C10 on a concrete one-row run. -/
theorem cache_hit_frame_witness :
    dictGet (dictSet (dictUpdate main_st_row cached_main) "places_status" "CACHED") "address"
      = dictGet main_st_row "address" :=
  (cache_hit_frame oracle_no_results [main_st_row] main_st_row cached_main "address"
    (by decide) (by decide) (by decide)).1

/-- C9 counterexample: on a cache hit, `places_status` is written twice in
one record's processing (once copied from the cached fields, once set to
`CACHED`), refuting "assigned exactly once". -/
theorem places_status_double_write :
    ((process_row_writes oracle_no_results (run_enrichment oracle_no_results [main_st_row])
        main_st_row).filter (fun w => w.1 == "places_status")).length = 2 := rfl

/-- C9 (amended): the final `places_status` is always one of the four
enumerated values; `enrich_row` assigns it exactly once, and a cached entry
holds exactly one status binding, so the cache-hit path assigns it exactly
twice (cached value, then `CACHED`). -/
theorem places_status_amended (o : Oracle) (st : LoopState) (row : Dict) (cached : Dict)
    (hkey : normalize_address_key row ≠ "")
    (hc : dictGet st.cache (normalize_address_key row) = some cached)
    (hcount : countKey cached "places_status" = 1) :
    ((process_row_writes o st row).filter (fun w => w.1 == "places_status")).length = 2
    ∧ (∀ (o2 : Oracle) (row2 : Dict),
        ((enrich_row_writes o2 row2).filter (fun w => w.1 == "places_status")).length = 1)
    ∧ (∀ (o2 : Oracle) (row2 : Dict), countKey row2 "places_status" = 0 →
        countKey (extract_places_fields (enrich_row o2 row2)) "places_status" = 1)
    ∧ (∀ (o2 : Oracle) (row2 : Dict),
        dictGet (enrich_row o2 row2) "places_status" = some "NO_MATCH"
        ∨ dictGet (enrich_row o2 row2) "places_status" = some "OK"
        ∨ dictGet (enrich_row o2 row2) "places_status" = some "NO_DETAILS")
    ∧ dictGet (dictSet (dictUpdate row cached) "places_status" "CACHED") "places_status"
        = some "CACHED" := by
  refine ⟨?_, enrich_row_writes_status_once, ?_, enrich_row_status_cases,
    by rw [dictGet_set, if_pos rfl]⟩
  · rw [process_row_writes]
    rw [if_neg hkey, hc]
    show ((cached ++ [("places_status", "CACHED")]).filter
        (fun w => w.1 == "places_status")).length = 2
    rw [List.filter_append, List.length_append]
    rw [show (cached.filter (fun w => w.1 == "places_status")).length = 1 from hcount]
    rfl
  · exact fun o2 row2 h => by
      rw [countKey_status_extract]
      exact countKey_status_enrich o2 row2 h

/-- Witness for C9 (amended) at a concrete cache-hit state. -/
theorem places_status_amended_witness :
    ((process_row_writes oracle_no_results hit_state main_st_row).filter
        (fun w => w.1 == "places_status")).length = 2 :=
  (places_status_amended oracle_no_results hit_state main_st_row cached_hit
    (by decide) (by decide) (by decide)).1

/-- C1 counterexample: on a row with no mapped columns, the normalized
record has no `doing_business_as` key at all — `parse_providers` defaults
only nine of the ten core fields. -/
theorem parse_providers_missing_dba :
    dictGet (parse_providers_row []) "doing_business_as" = none := rfl

/-- C1 (amended): every field of the `setdefault` table — nine of the ten
core fields, `doing_business_as` excepted — is present as a string value in
every normalized record, and equals the table's default (`""`, or `"MN"`
for `state`) whenever no mapped source column supplied it. -/
theorem parse_providers_core_defaults :
    ∀ (row : Dict) (p : String × PyVal), p ∈ core_defaults →
      ∃ v : String, dictGet (parse_providers_row row) p.1 = some (PyVal.str v) ∧
        (mapped_value row p.1 = none → PyVal.str v = p.2) := by
  intro row p hp
  have hfield : p.1 ≠ "raw_row" ∧ dictGet core_defaults p.1 = some p.2 ∧
      ∃ v0, p.2 = PyVal.str v0 := by
    fin_cases hp <;> exact ⟨by decide, by decide, ⟨_, rfl⟩⟩
  have hchain : dictGet (parse_providers_row row) p.1 =
      match (match mapped_value row p.1 with
             | some v => some (PyVal.str v)
             | none => dictGet ([("raw_row", PyVal.dict row)] : Record) p.1) with
      | some v => some v
      | none => dictGet core_defaults p.1 := by
    rw [show parse_providers_row row = core_defaults.foldl
        (fun acc q => dictSetdefault acc q.1 q.2)
        (map_columns_on column_map row [("raw_row", PyVal.dict row)]) from rfl]
    rw [defaults_foldl_get, map_columns_on_get]
    rfl
  cases hm : mapped_value row p.1 with
  | some v =>
    refine ⟨v, ?_, fun hnone => absurd hnone (by simp)⟩
    rw [hchain, hm]
  | none =>
    obtain ⟨v0, hv0⟩ := hfield.2.2
    have hinit : dictGet ([("raw_row", PyVal.dict row)] : Record) p.1 = none := by
      rw [show dictGet ([("raw_row", PyVal.dict row)] : Record) p.1 =
          if "raw_row" = p.1 then some (PyVal.dict row) else none from rfl]
      rw [if_neg (fun h => hfield.1 h.symm)]
    refine ⟨v0, ?_, fun _ => hv0.symm⟩
    rw [hchain, hm, hinit, hfield.2.1, hv0]

/-- Witness for C1 (amended): `state` defaults to `"MN"` on the empty row. -/
theorem parse_providers_core_defaults_witness :
    ∃ v : String, dictGet (parse_providers_row []) "state" = some (PyVal.str v) ∧
      (mapped_value [] "state" = none → PyVal.str v = PyVal.str "MN") :=
  parse_providers_core_defaults [] ("state", PyVal.str "MN") (by decide)

/-- C3 counterexample: two records with identical (absent) address, city,
state and zip components get different keys, because the key falls back to
the provider name. -/
theorem address_key_same_address_counterexample :
    dictGetD alpha_row "address" "" = dictGetD beta_row "address" ""
    ∧ dictGetD alpha_row "city" "" = dictGetD beta_row "city" ""
    ∧ dictGetD alpha_row "state" "" = dictGetD beta_row "state" ""
    ∧ dictGetD alpha_row "zip" "" = dictGetD beta_row "zip" ""
    ∧ normalize_address_key alpha_row ≠ normalize_address_key beta_row := by decide

/-- C3 (amended): the address key equals the spec's reference definition; it
is a pure, deterministic function of the four address components and the
provider name; records agreeing on the four address components get the same
key whenever the normalized composite is non-empty; and the spec's concrete
record yields `"duluth mn 55802"`. -/
theorem address_key_spec_amended :
    (∀ row : Dict, normalize_address_key row = spec_address_key row)
    ∧ (∀ r1 r2 : Dict,
        dictGetD r1 "address" "" = dictGetD r2 "address" "" →
        dictGetD r1 "city" "" = dictGetD r2 "city" "" →
        dictGetD r1 "state" "" = dictGetD r2 "state" "" →
        dictGetD r1 "zip" "" = dictGetD r2 "zip" "" →
        dictGetD r1 "provider_name" "" = dictGetD r2 "provider_name" "" →
        normalize_address_key r1 = normalize_address_key r2)
    ∧ (∀ r1 r2 : Dict,
        dictGetD r1 "address" "" = dictGetD r2 "address" "" →
        dictGetD r1 "city" "" = dictGetD r2 "city" "" →
        dictGetD r1 "state" "" = dictGetD r2 "state" "" →
        dictGetD r1 "zip" "" = dictGetD r2 "zip" "" →
        composite_address_key r1 ≠ "" →
        normalize_address_key r1 = normalize_address_key r2)
    ∧ normalize_address_key sunny_row = "duluth mn 55802" := by
  refine ⟨fun row => rfl, ?_, ?_, by decide⟩
  · intro r1 r2 h1 h2 h3 h4 h5
    simp only [normalize_address_key, h1, h2, h3, h4, h5]
  · intro r1 r2 h1 h2 h3 h4 hne
    have hcomp : composite_address_key r1 = composite_address_key r2 := by
      simp only [composite_address_key, h1, h2, h3, h4]
    rw [show normalize_address_key r1 = (if composite_address_key r1 = ""
        then spec_norm (dictGetD r1 "provider_name" "") else composite_address_key r1) from rfl]
    rw [show normalize_address_key r2 = (if composite_address_key r2 = ""
        then spec_norm (dictGetD r2 "provider_name" "") else composite_address_key r2) from rfl]
    rw [← hcomp, if_neg hne, if_neg hne]

/-- Witness for C3 (amended): the same address in a different field order
yields the same key, and the code key equals the spec key on the concrete
record. -/
theorem address_key_spec_amended_witness :
    normalize_address_key sunny_row2 = normalize_address_key sunny_row
    ∧ normalize_address_key sunny_row = spec_address_key sunny_row :=
  ⟨address_key_spec_amended.2.2.1 sunny_row2 sunny_row
      (by decide) (by decide) (by decide) (by decide) (by decide),
    address_key_spec_amended.1 sunny_row⟩

/-- C4 counterexample: the enriched CSV's columns are not the ten core
columns followed by the `places_` columns — `main` sorts all keys together,
so the first column is `address`, not `license_number`. -/
theorem fieldnames_order_counterexample :
    compute_fieldnames enriched_fixture ≠ claimed_fieldnames enriched_fixture
    ∧ (compute_fieldnames enriched_fixture).head? = some "address"
    ∧ (claimed_fieldnames enriched_fixture).head? = some "license_number" := by decide

/-- C4 (amended): the enriched CSV's columns are the distinct keys of all
output records sorted alphabetically as one list (so the `places_` columns
are not appended after the core columns). -/
theorem fieldnames_sorted_union (rows : List Dict) :
    List.Sorted (fun a b => strLe a b = true) (compute_fieldnames rows)
    ∧ ∀ k, k ∈ compute_fieldnames rows ↔ ∃ r, r ∈ rows ∧ (dictGet r k).isSome = true := by
  constructor
  · exact List.sorted_insertionSort _ _
  · intro k
    rw [show compute_fieldnames rows
        = sortStrings ((rows.map dictKeys).flatten.dedup) from rfl, sortStrings]
    rw [List.Perm.mem_iff (List.perm_insertionSort _ _)]
    rw [List.mem_dedup, List.mem_flatten]
    constructor
    · rintro ⟨l, hl, hkl⟩
      obtain ⟨r, hr, rfl⟩ := List.mem_map.mp hl
      exact ⟨r, hr, (dictGet_isSome_iff_mem_keys _ _).mpr hkl⟩
    · rintro ⟨r, hr, hk⟩
      exact ⟨dictKeys r, List.mem_map.mpr ⟨r, hr, rfl⟩, (dictGet_isSome_iff_mem_keys _ _).mp hk⟩

/-- Witness for C4 (amended) on the concrete one-row enriched output. -/
theorem fieldnames_sorted_union_witness :
    List.Sorted (fun a b => strLe a b = true) (compute_fieldnames enriched_fixture) :=
  (fieldnames_sorted_union enriched_fixture).1

/-- C7: on a left block in the documented layout, the extractor takes the
first line as address and the county line's suffix off, but the
city/state/zip regex — written with doubled backslashes — matches nothing,
so city and zip stay empty and state falls back to `"MN"`. -/
theorem html_extractor_city_state_zip_failure :
    parse_left_block "123 Main St\nDuluth, MN 55802\nSt. Louis County"
      = ("123 Main St", "", "MN", "", "St. Louis")
    ∧ match_city_state_zip "Duluth, MN 55802" = none := ⟨rfl, rfl⟩

/-- C8: the column mapper resolves synonym source columns by table order:
the canonical field gets the trimmed value of the last `column_map` entry
whose source column is present with a non-empty value (last-wins), and that
value survives the defaulting pass. -/
theorem column_mapper_last_wins (row : Dict) (c : String) (v : String)
    (hm : mapped_value row c = some v) :
    dictGet (parse_providers_row row) c = some (PyVal.str v) := by
  rw [show parse_providers_row row = core_defaults.foldl
      (fun acc q => dictSetdefault acc q.1 q.2)
      (map_columns_on column_map row [("raw_row", PyVal.dict row)]) from rfl]
  rw [defaults_foldl_get, map_columns_on_get]
  rw [show mapped_value_on column_map row c = mapped_value row c from rfl, hm]

/-- Witness for C8: with both `LicenseNumber` and `License #` present, the
later entry wins and its value is trimmed. -/
theorem column_mapper_last_wins_witness :
    dictGet (parse_providers_row dup_row) "license_number" = some (PyVal.str "222") :=
  column_mapper_last_wins dup_row "license_number" "222" (by decide)
